import Mathlib

/-!
Verification of the bundle cart-transform function
(`src/extensions/bundle-cart-transform/src/cart_transform_run.js`).

The development shallowly embeds the JavaScript source: JSON values are an
inductive type, the host JSON reader is modelled as a total function returning
`Option`, and the two source functions `normalizeVariantIds` and
`cartTransformRun` are translated clause by clause.
-/

namespace BundleCartTransform

/-- JSON values as carried in a metafield's `jsonValue` field and as returned by
the host JSON reader.  Numbers are modelled as exact rationals; object fields
are kept in textual order, with later duplicates shadowing earlier ones on
lookup, as in the host language. -/
inductive JSValue where
  | null
  | bool (b : Bool)
  | num (q : Rat)
  | str (s : String)
  | arr (elems : List JSValue)
  | obj (fields : List (String × JSValue))

/-- Truthiness of a JSON value under the host language's boolean coercion:
`null`, `false`, `0` and the empty string are falsy, everything else truthy. -/
def truthy : JSValue → Bool
  | .null => false
  | .bool b => b
  | .num q => decide (q ≠ 0)
  | .str s => decide (s ≠ "")
  | .arr _ => true
  | .obj _ => true

/-- Truthiness of a possibly-absent (`undefined`) value: absence is falsy. -/
def truthyOpt : Option JSValue → Bool
  | none => false
  | some v => truthy v

/-- Optional-chained field access `v?.key`: `none` models `undefined` (missing
field, or access on a non-object).  For duplicate keys the last one wins. -/
def getField (v : JSValue) (key : String) : Option JSValue :=
  match v with
  | .obj fields => fields.foldl (fun acc kv => if kv.1 = key then some kv.2 else acc) none
  | _ => none

/-! ### A model of the host JSON reader

`normalizeVariantIds` feeds the metafield's raw string `value` to the host JSON
reader inside a try/catch.  The reader is modelled here as a total recursive
descent function; `none` stands for the host throwing a syntax error. -/

/-- Insignificant whitespace accepted between JSON tokens. -/
def isJsonWs (c : Char) : Bool :=
  c = ' ' || c = '\t' || c = '\n' || c = '\r'

/-- Drop leading JSON whitespace. -/
def skipWs : List Char → List Char
  | [] => []
  | c :: cs => if isJsonWs c then skipWs cs else c :: cs

/-- Value of a hexadecimal digit, if the character is one. -/
def hexVal (c : Char) : Option Nat :=
  if '0' ≤ c ∧ c ≤ '9' then some (c.toNat - 48)
  else if 'a' ≤ c ∧ c ≤ 'f' then some (c.toNat - 87)
  else if 'A' ≤ c ∧ c ≤ 'F' then some (c.toNat - 55)
  else none

/-- One lexical piece of a JSON string body: a literal character, or the 16-bit
value of a `\uXXXX` escape (possibly one half of a surrogate pair). -/
inductive StrPiece where
  | ch (c : Char)
  | unit (n : Nat)

/-- Read the body of a JSON string up to and including the closing quote,
returning its pieces and the remaining input.  Raw control characters are a
syntax error, as are unknown escapes. -/
def readStrBody : List Char → Option (List StrPiece × List Char)
  | [] => none
  | c :: cs =>
    if c = '"' then some ([], cs)
    else if c = '\\' then
      match cs with
      | [] => none
      | e :: cs2 =>
        if e = '"' then (readStrBody cs2).map (fun p => (.ch '"' :: p.1, p.2))
        else if e = '\\' then (readStrBody cs2).map (fun p => (.ch '\\' :: p.1, p.2))
        else if e = '/' then (readStrBody cs2).map (fun p => (.ch '/' :: p.1, p.2))
        else if e = 'b' then (readStrBody cs2).map (fun p => (.ch (Char.ofNat 8) :: p.1, p.2))
        else if e = 'f' then (readStrBody cs2).map (fun p => (.ch (Char.ofNat 12) :: p.1, p.2))
        else if e = 'n' then (readStrBody cs2).map (fun p => (.ch '\n' :: p.1, p.2))
        else if e = 'r' then (readStrBody cs2).map (fun p => (.ch '\r' :: p.1, p.2))
        else if e = 't' then (readStrBody cs2).map (fun p => (.ch '\t' :: p.1, p.2))
        else if e = 'u' then
          match cs2 with
          | h1 :: h2 :: h3 :: h4 :: cs3 =>
            match hexVal h1, hexVal h2, hexVal h3, hexVal h4 with
            | some a, some b, some c2, some d =>
              (readStrBody cs3).map (fun p => (.unit (((a * 16 + b) * 16 + c2) * 16 + d) :: p.1, p.2))
            | _, _, _, _ => none
          | _ => none
        else none
    else if c.toNat < 32 then none
    else (readStrBody cs).map (fun p => (.ch c :: p.1, p.2))

/-- Character for a single 16-bit escape value: a lone surrogate becomes the
replacement character, anything else the code point itself. -/
def unitChar (n : Nat) : Char :=
  if 0xD800 ≤ n ∧ n ≤ 0xDFFF then Char.ofNat 0xFFFD else Char.ofNat n

/-- Combine string pieces into characters, pairing UTF-16 surrogate halves from
`\u` escapes; a lone surrogate becomes the replacement character. -/
def combinePieces : List StrPiece → List Char
  | [] => []
  | .ch c :: rest => c :: combinePieces rest
  | .unit n :: .unit m :: rest2 =>
    if 0xD800 ≤ n ∧ n ≤ 0xDBFF ∧ 0xDC00 ≤ m ∧ m ≤ 0xDFFF then
      Char.ofNat (0x10000 + (n - 0xD800) * 0x400 + (m - 0xDC00)) :: combinePieces rest2
    else unitChar n :: combinePieces (.unit m :: rest2)
  | .unit n :: rest => unitChar n :: combinePieces rest

/-- Take a maximal run of decimal digits. -/
def takeDigits : List Char → List Char × List Char
  | [] => ([], [])
  | c :: cs =>
    if c.isDigit then
      let p := takeDigits cs
      (c :: p.1, p.2)
    else ([], c :: cs)

/-- Numeric value of a digit run. -/
def digitsToNat (ds : List Char) : Nat :=
  ds.foldl (fun acc c => acc * 10 + (c.toNat - 48)) 0

/-- The integer part of a JSON number: a single `0`, or a nonzero digit followed
by more digits (leading zeros are a syntax error). -/
def readIntDigits : List Char → Option (List Char × List Char)
  | [] => none
  | c :: cs =>
    if c = '0' then some ([c], cs)
    else if c.isDigit then
      let p := takeDigits cs
      some (c :: p.1, p.2)
    else none

/-- The optional fraction part: a dot must be followed by at least one digit. -/
def readFrac : List Char → Option (List Char × List Char)
  | '.' :: rest =>
    let p := takeDigits rest
    if p.1.isEmpty then none else some (p.1, p.2)
  | cs => some ([], cs)

/-- The optional exponent part, returned as a signed integer (0 when absent). -/
def readExp : List Char → Option (Int × List Char)
  | [] => some (0, [])
  | c :: rest =>
    if c = 'e' ∨ c = 'E' then
      let sp : Bool × List Char :=
        match rest with
        | s :: r2 => if s = '+' then (false, r2) else if s = '-' then (true, r2) else (false, rest)
        | [] => (false, rest)
      let p := takeDigits sp.2
      if p.1.isEmpty then none
      else some (if sp.1 then -(digitsToNat p.1 : Int) else (digitsToNat p.1 : Int), p.2)
    else some (0, c :: rest)

/-- Read a JSON number (grammar `-? int frac? exp?`) as an exact rational. -/
def readNumber (cs : List Char) : Option (Rat × List Char) :=
  let sn : Bool × List Char :=
    match cs with
    | c :: rest => if c = '-' then (true, rest) else (false, cs)
    | [] => (false, cs)
  match readIntDigits sn.2 with
  | none => none
  | some (ids, cs2) =>
    match readFrac cs2 with
    | none => none
    | some (fds, cs3) =>
      match readExp cs3 with
      | none => none
      | some (e, cs4) =>
        let mantissa : Rat := (digitsToNat (ids ++ fds) : Rat) / (10 : Rat) ^ fds.length
        let scaled : Rat :=
          if 0 ≤ e then mantissa * (10 : Rat) ^ e.toNat else mantissa / (10 : Rat) ^ (-e).toNat
        some (if sn.1 then -scaled else scaled, cs4)

mutual

/-- Read one JSON value (after optional leading whitespace).  The fuel bounds
recursion depth; `jsonParse` supplies more fuel than any input can consume. -/
def readValue : Nat → List Char → Option (JSValue × List Char)
  | 0, _ => none
  | fuel + 1, cs =>
    match skipWs cs with
    | [] => none
    | c :: rest =>
      if c = 'n' then
        match rest with
        | 'u' :: 'l' :: 'l' :: r => some (.null, r)
        | _ => none
      else if c = 't' then
        match rest with
        | 'r' :: 'u' :: 'e' :: r => some (.bool true, r)
        | _ => none
      else if c = 'f' then
        match rest with
        | 'a' :: 'l' :: 's' :: 'e' :: r => some (.bool false, r)
        | _ => none
      else if c = '"' then
        match readStrBody rest with
        | some (pieces, r) => some (.str (String.mk (combinePieces pieces)), r)
        | none => none
      else if c = '[' then
        match skipWs rest with
        | ']' :: r => some (.arr [], r)
        | rest2 =>
          match readElems fuel rest2 with
          | some (xs, r) => some (.arr xs, r)
          | none => none
      else if c = '{' then
        match skipWs rest with
        | '}' :: r => some (.obj [], r)
        | rest2 =>
          match readFields fuel rest2 with
          | some (fs, r) => some (.obj fs, r)
          | none => none
      else if c = '-' ∨ c.isDigit then
        match readNumber (c :: rest) with
        | some (q, r) => some (.num q, r)
        | none => none
      else none

/-- Read the comma-separated elements of a nonempty JSON array, up to and
including the closing bracket. -/
def readElems : Nat → List Char → Option (List JSValue × List Char)
  | 0, _ => none
  | fuel + 1, cs =>
    match readValue fuel cs with
    | none => none
    | some (v, r) =>
      match skipWs r with
      | ',' :: r2 =>
        match readElems fuel r2 with
        | some (xs, r3) => some (v :: xs, r3)
        | none => none
      | ']' :: r2 => some ([v], r2)
      | _ => none

/-- Read the comma-separated members of a nonempty JSON object, up to and
including the closing brace. -/
def readFields : Nat → List Char → Option (List (String × JSValue) × List Char)
  | 0, _ => none
  | fuel + 1, cs =>
    match skipWs cs with
    | '"' :: rest =>
      match readStrBody rest with
      | none => none
      | some (pieces, r) =>
        match skipWs r with
        | ':' :: r2 =>
          match readValue fuel r2 with
          | none => none
          | some (v, r3) =>
            match skipWs r3 with
            | ',' :: r4 =>
              match readFields fuel r4 with
              | some (fs, r5) => some ((String.mk (combinePieces pieces), v) :: fs, r5)
              | none => none
            | '}' :: r4 => some ([(String.mk (combinePieces pieces), v)], r4)
            | _ => none
        | _ => none
    | _ => none

end

/-- Model of the host JSON reader applied to a whole string: the parsed value
when the string is a JSON text (with possible surrounding whitespace), `none`
where the host would throw a syntax error. -/
def jsonParse (s : String) : Option JSValue :=
  match readValue (3 * (s.length + 1)) s.toList with
  | some (v, r) => if (skipWs r).isEmpty then some v else none
  | none => none

/-! ### Data model

The input shapes follow the cart-transform input schema: a cart is an ordered
sequence of lines; a line has an id, an optional quantity and a merchandise
reference; a product-variant merchandise may carry the bundle-reference
metafield under the `bundleRefs` alias.  `Option` models absent/null fields. -/

/-- The bundle-reference metafield attached to a product variant: a declared
type tag, an optional parsed JSON value and an optional raw string value. -/
structure Metafield where
  type : String
  jsonValue : Option JSValue
  value : Option String

/-- A line's merchandise: the typename discriminator and, for product variants,
the optional bundle-reference metafield. -/
structure Merchandise where
  typename : String
  bundleRefs : Option Metafield

/-- One cart line. -/
structure CartLine where
  id : String
  quantity : Option Int
  merchandise : Option Merchandise

/-- The cart: an optional list of lines (the source guards with `?? []`). -/
structure Cart where
  lines : Option (List CartLine)

/-- The input handed to the transform by the host runtime. -/
structure RunInput where
  cart : Cart

/-- One expanded item of a lineExpand operation.  The merchandise id is a JSON
value because the source propagates whatever truthy value resolution produced,
string or not. -/
structure ExpandedItem where
  merchandiseId : JSValue
  quantity : Int

/-- The payload of a lineExpand operation. -/
structure LineExpand where
  cartLineId : String
  expandedCartItems : List ExpandedItem

/-- One operation of the result. -/
structure Operation where
  lineExpand : LineExpand

/-- The result returned to the host runtime. -/
structure RunResult where
  operations : List Operation

/-- The shared constant result `NO_CHANGES` of the source. -/
def NO_CHANGES : RunResult := { operations := [] }

/-! ### Host string operations

The string branch of `normalizeVariantIds` uses the host's `startsWith`,
`split(",")` and `trim`.  They are modelled on character lists so that concrete
inputs evaluate by reduction. -/

/-- The host's `raw.startsWith("gid://")`. -/
def startsWithGid (s : String) : Bool :=
  match s.toList with
  | 'g' :: 'i' :: 'd' :: ':' :: '/' :: '/' :: _ => true
  | _ => false

/-- Whitespace removed by the host's string trim: space, tab, line feed,
vertical tab, form feed, carriage return, no-break space, line and paragraph
separators, and the byte-order mark. -/
def isTrimWs (c : Char) : Bool :=
  c = ' ' || c = '\t' || c = '\n' || c = '\r' ||
  c.toNat = 11 || c.toNat = 12 || c.toNat = 160 ||
  c.toNat = 8232 || c.toNat = 8233 || c.toNat = 65279

/-- Drop leading trim-whitespace. -/
def dropLeadingWs : List Char → List Char
  | [] => []
  | c :: cs => if isTrimWs c then dropLeadingWs cs else c :: cs

/-- The host's `piece.trim()`: drop whitespace at both ends. -/
def jsTrim (s : String) : String :=
  String.mk (dropLeadingWs ((dropLeadingWs s.toList.reverse).reverse))

/-- Split a character list at every comma; the empty list yields one empty
group, as the host's `"".split(",")` yields `[""]`. -/
def splitCommaChars : List Char → List (List Char)
  | [] => [[]]
  | c :: cs =>
    if c = ',' then [] :: splitCommaChars cs
    else
      match splitCommaChars cs with
      | [] => [[c]]
      | g :: gs => (c :: g) :: gs

/-- The host's `raw.split(",")`. -/
def jsSplitComma (s : String) : List String :=
  (splitCommaChars s.toList).map String.mk

/-! ### The source functions -/

/-- The element mapping of the array branch of `normalizeVariantIds`:
`typeof item === "string" ? item : item?.id || item?.gid || null`. -/
def mapElem (item : JSValue) : JSValue :=
  match item with
  | .str _ => item
  | _ =>
    let a := getField item ("id")
    let b := getField item ("gid")
    if truthyOpt a then a.getD .null
    else if truthyOpt b then b.getD .null
    else .null

/-- The shape dispatch on the resolved `raw` value at the end of
`normalizeVariantIds`: an array is mapped elementwise and filtered to truthy
results; a string is a single identifier when it carries the `gid://` scheme,
otherwise split on commas, trimmed and filtered to pieces carrying the scheme;
every other shape (including absence) yields no identifiers. -/
def resolveRaw : Option JSValue → List JSValue
  | some (.arr xs) => (xs.map mapElem).filter truthy
  | some (.str s) =>
    if startsWithGid s then [.str s]
    else (((jsSplitComma s).map jsTrim).filter startsWithGid).map JSValue.str
  | _ => []

/-- Model of `normalizeVariantIds` (cart_transform_run.js, lines 53-90): prefer
the parsed `jsonValue`; when it is falsy and the raw `value` is a string, try
it through the JSON reader inside try/catch — a successful parse replaces
`raw`, a syntax error is swallowed and leaves `raw` unchanged — and finally
dispatch on the shape of `raw`. -/
def normalizeVariantIds (mf : Option Metafield) : List JSValue :=
  match mf with
  | none => []
  | some m =>
    let raw0 := m.jsonValue
    let raw : Option JSValue :=
      if truthyOpt raw0 then raw0
      else
        match m.value with
        | some s =>
          match jsonParse s with
          | some v => some v
          | none => raw0
        | none => raw0
    resolveRaw raw

/-- The body of the per-line loop of `cartTransformRun`: the operations pushed
for one line — `[]` where the source hits a `continue`, a single lineExpand
operation otherwise. -/
def lineOperations (line : CartLine) : List Operation :=
  match line.merchandise with
  | none => []
  | some merch =>
    if merch.typename ≠ "ProductVariant" then []
    else
      match merch.bundleRefs with
      | none => []
      | some mf =>
        if mf.type ≠ "list.variant_reference" then []
        else
          let componentVariantIds := normalizeVariantIds (some mf)
          if componentVariantIds.length = 0 then []
          else
            [{ lineExpand :=
                { cartLineId := line.id
                  expandedCartItems := componentVariantIds.map (fun variantId =>
                    { merchandiseId := variantId, quantity := line.quantity.getD 1 }) } }]

/-- Model of `cartTransformRun` (cart_transform_run.js, lines 19-51): fold over
the cart's lines (empty when absent), appending each line's operations. -/
def cartTransformRun (input : RunInput) : RunResult :=
  { operations :=
      (input.cart.lines.getD []).foldl (fun ops line => ops ++ lineOperations line) [] }

/-! ### Exception-aware model

The only site in the source that can throw for malformed data is the JSON
reader, and it sits inside a try/catch whose handler ignores the error.  The
following variants make the exception flow explicit: an uncaught throw would
surface as `Except.error`. -/

/-- The JSON reader with an explicit syntax-error outcome. -/
def jsonParseE (s : String) : Except String JSValue :=
  match jsonParse s with
  | some v => Except.ok v
  | none => Except.error ("SyntaxError")

/-- `normalizeVariantIds` with explicit exception flow: the catch clause maps a
syntax error back to the unchanged `raw`, so no error escapes. -/
def normalizeVariantIdsE (mf : Option Metafield) : Except String (List JSValue) :=
  match mf with
  | none => Except.ok []
  | some m =>
    let raw0 := m.jsonValue
    let tried : Except String (Option JSValue) :=
      if truthyOpt raw0 then Except.ok raw0
      else
        match m.value with
        | some s =>
          match jsonParseE s with
          | Except.ok v => Except.ok (some v)
          | Except.error _ => Except.ok raw0
        | none => Except.ok raw0
    match tried with
    | Except.ok raw => Except.ok (resolveRaw raw)
    | Except.error e => Except.error e

/-- The per-line loop body with explicit exception flow. -/
def lineOperationsE (line : CartLine) : Except String (List Operation) :=
  match line.merchandise with
  | none => Except.ok []
  | some merch =>
    if merch.typename ≠ "ProductVariant" then Except.ok []
    else
      match merch.bundleRefs with
      | none => Except.ok []
      | some mf =>
        if mf.type ≠ "list.variant_reference" then Except.ok []
        else
          match normalizeVariantIdsE (some mf) with
          | Except.error e => Except.error e
          | Except.ok componentVariantIds =>
            if componentVariantIds.length = 0 then Except.ok []
            else
              Except.ok
                [{ lineExpand :=
                    { cartLineId := line.id
                      expandedCartItems := componentVariantIds.map (fun variantId =>
                        { merchandiseId := variantId, quantity := line.quantity.getD 1 }) } }]

/-- The for-loop of `cartTransformRun` with explicit exception flow: an error
from the body would abort the whole loop. -/
def runLoopE : List CartLine → List Operation → Except String (List Operation)
  | [], ops => Except.ok ops
  | line :: rest, ops =>
    match lineOperationsE line with
    | Except.error e => Except.error e
    | Except.ok next => runLoopE rest (ops ++ next)

/-- `cartTransformRun` with explicit exception flow. -/
def cartTransformRunE (input : RunInput) : Except String RunResult :=
  match runLoopE (input.cart.lines.getD []) [] with
  | Except.ok ops => Except.ok { operations := ops }
  | Except.error e => Except.error e

/-! ### Spec-side resolutions and concrete inputs

`specArrayResolution` is written from the spec's words for comparison with the
source's array branch; the remaining definitions are concrete inputs used in
counterexamples and witnesses. -/

/-- Written from the spec's words on array resolution: a string element is kept
as-is; a non-string element contributes its id field, or when the id field is
absent its gid field, and is dropped when it has neither; all falsy results are
then removed, order preserved. -/
def specArrayResolution (xs : List JSValue) : List JSValue :=
  (xs.map (fun item =>
    match item with
    | JSValue.str _ => item
    | _ =>
      match getField item ("id") with
      | some a => a
      | none =>
        match getField item ("gid") with
        | some b => b
        | none => JSValue.null)).filter truthy

/-- Amended elementwise array resolution: keep a nonempty string element; for a
non-string element take the id field when truthy, otherwise the gid field when
truthy, otherwise drop the element. -/
def amendedElem (item : JSValue) : Option JSValue :=
  match item with
  | JSValue.str s => if s = "" then none else some (JSValue.str s)
  | _ =>
    let a := getField item ("id")
    let b := getField item ("gid")
    if truthyOpt a then a
    else if truthyOpt b then b
    else none

/-- A two-component bundle metafield used in concrete witnesses. -/
def sampleMetafield : Metafield :=
  { type := "list.variant_reference"
    jsonValue := some (.arr [.str ("gid://shopify/ProductVariant/1"),
      .str ("gid://shopify/ProductVariant/2")])
    value := none }

/-- A qualifying bundle line of quantity 3. -/
def sampleLine : CartLine :=
  { id := "gid://shopify/CartLine/0"
    quantity := some 3
    merchandise := some { typename := "ProductVariant", bundleRefs := some sampleMetafield } }

/-- A one-line cart around `sampleLine`. -/
def sampleInput : RunInput := { cart := { lines := some [sampleLine] } }

/-- First expanded item of the sample line's operation. -/
def sampleItem1 : ExpandedItem :=
  { merchandiseId := .str ("gid://shopify/ProductVariant/1"), quantity := 3 }

/-- Second expanded item of the sample line's operation. -/
def sampleItem2 : ExpandedItem :=
  { merchandiseId := .str ("gid://shopify/ProductVariant/2"), quantity := 3 }

/-- The operation the sample line expands to. -/
def sampleOp : Operation :=
  { lineExpand :=
      { cartLineId := "gid://shopify/CartLine/0"
        expandedCartItems := [sampleItem1, sampleItem2] } }

/-- The metafield of C1's example: no parsed JSON value, raw string value
"gid://shopify/ProductVariant/9", which is not a JSON text. -/
def c1Metafield : Metafield :=
  { type := "list.variant_reference"
    jsonValue := none
    value := some ("gid://shopify/ProductVariant/9") }

/-- A metafield with a near-miss type tag and a perfectly shaped value. -/
def c5Metafield : Metafield :=
  { type := "list.product_reference"
    jsonValue := some (.arr [.str ("gid://shopify/ProductVariant/1")])
    value := none }

/-- A product-variant line carrying `c5Metafield`. -/
def c5Line : CartLine :=
  { id := "gid://shopify/CartLine/5"
    quantity := some 2
    merchandise := some { typename := "ProductVariant", bundleRefs := some c5Metafield } }

/-- The array element refuting C6: its id field is present but empty while its
gid field holds a real identifier. -/
def c6Element : JSValue :=
  .obj [("id", .str ("")), ("gid", .str ("gid://shopify/ProductVariant/7"))]

/-- A metafield whose parsed value is the one-element array `[c6Element]`. -/
def c6Metafield : Metafield :=
  { type := "list.variant_reference"
    jsonValue := some (.arr [c6Element])
    value := none }

/-- A non-product-variant line. -/
def c7Line : CartLine :=
  { id := "gid://shopify/CartLine/7"
    quantity := none
    merchandise := some { typename := "CustomProduct", bundleRefs := none } }

/-- A metafield mixing a non-gid string element with a numeric id field. -/
def c10Metafield : Metafield :=
  { type := "list.variant_reference"
    jsonValue := some (.arr [.str ("not-a-gid"), .obj [("id", .num 42)]])
    value := none }

/-- A quantity-less product-variant line carrying `c10Metafield`. -/
def c10Line : CartLine :=
  { id := "gid://shopify/CartLine/10"
    quantity := none
    merchandise := some { typename := "ProductVariant", bundleRefs := some c10Metafield } }

/-! ### Shared lemmas -/

/-- The push-loop of `cartTransformRun` is the in-order concatenation of the
per-line contributions. -/
theorem foldl_push_eq_flatMap (l : List CartLine) (init : List Operation) :
    l.foldl (fun ops line => ops ++ lineOperations line) init =
      init ++ l.flatMap lineOperations := by
  induction l generalizing init with
  | nil => simp
  | cons a as ih => simp [List.foldl_cons, ih, List.flatMap_cons]

/-- The operations of the result, as a flat map over the lines. -/
theorem cartTransformRun_operations (input : RunInput) :
    (cartTransformRun input).operations =
      (input.cart.lines.getD []).flatMap lineOperations := by
  unfold cartTransformRun
  simp [foldl_push_eq_flatMap]

/-- A gid-schemed string is nonempty, hence truthy. -/
theorem truthy_str_of_startsWith (s : String) (h : startsWithGid s = true) :
    truthy (JSValue.str s) = true := by
  rcases eq_or_ne s "" with he | hne
  · subst he
    exact absurd h (by decide)
  · simp [truthy, hne]

/-- Every identifier produced by the shape dispatch is truthy. -/
theorem truthy_of_mem_resolveRaw (r : Option JSValue) (v : JSValue)
    (h : v ∈ resolveRaw r) : truthy v = true := by
  match r with
  | none => simp [resolveRaw] at h
  | some .null => simp [resolveRaw] at h
  | some (.bool b) => simp [resolveRaw] at h
  | some (.num q) => simp [resolveRaw] at h
  | some (.obj fs) => simp [resolveRaw] at h
  | some (.arr xs) =>
    simp only [resolveRaw] at h
    exact (List.mem_filter.mp h).2
  | some (.str s) =>
    simp only [resolveRaw] at h
    by_cases hs : startsWithGid s = true
    · rw [if_pos hs] at h
      rw [List.mem_singleton.mp h]
      exact truthy_str_of_startsWith s hs
    · rw [if_neg hs] at h
      obtain ⟨t, ht, rfl⟩ := List.mem_map.mp h
      exact truthy_str_of_startsWith t (List.mem_filter.mp ht).2

/-- Every identifier produced by `normalizeVariantIds` is truthy. -/
theorem truthy_of_mem_normalizeVariantIds (mf : Option Metafield) (v : JSValue)
    (h : v ∈ normalizeVariantIds mf) : truthy v = true := by
  match mf with
  | none => simp [normalizeVariantIds] at h
  | some m =>
    unfold normalizeVariantIds at h
    exact truthy_of_mem_resolveRaw _ v h

/-- Shape of a line's contribution: every pushed operation carries the line's
id, a nonempty item list, and items built from truthy resolved identifiers with
the line's defaulted quantity. -/
theorem mem_lineOperations (line : CartLine) (op : Operation)
    (h : op ∈ lineOperations line) :
    op.lineExpand.cartLineId = line.id ∧
    op.lineExpand.expandedCartItems ≠ [] ∧
    ∀ item ∈ op.lineExpand.expandedCartItems,
      truthy item.merchandiseId = true ∧ item.quantity = line.quantity.getD 1 := by
  simp only [lineOperations] at h
  split at h
  · simp at h
  · split at h
    · simp at h
    · split at h
      · simp at h
      · split at h
        · simp at h
        · split at h
          · simp at h
          · rename_i hlen
            rw [List.mem_singleton.mp h]
            refine ⟨rfl, ?_, ?_⟩
            · intro hnil
              exact hlen (by simpa using congrArg List.length hnil)
            · intro item hitem
              obtain ⟨w, hw, rfl⟩ := List.mem_map.mp hitem
              exact ⟨truthy_of_mem_normalizeVariantIds _ w hw, rfl⟩

/-- The exception-aware resolution never escapes with an error and agrees with
the pure model: the catch clause swallows the only possible throw. -/
theorem normalizeVariantIdsE_eq (mf : Option Metafield) :
    normalizeVariantIdsE mf = Except.ok (normalizeVariantIds mf) := by
  match mf with
  | none => rfl
  | some m =>
    obtain ⟨mty, mjson, mval⟩ := m
    simp only [normalizeVariantIdsE, normalizeVariantIds, jsonParseE]
    by_cases ht : truthyOpt mjson = true
    · simp [ht]
    · rw [Bool.not_eq_true] at ht
      cases mval with
      | none => simp [ht]
      | some s =>
        cases hp : jsonParse s with
        | none => simp [ht, hp]
        | some v => simp [ht, hp]

/-- The exception-aware loop body agrees with the pure model. -/
theorem lineOperationsE_eq (line : CartLine) :
    lineOperationsE line = Except.ok (lineOperations line) := by
  unfold lineOperationsE lineOperations
  match line.merchandise with
  | none => rfl
  | some merch =>
    by_cases hpv : merch.typename = "ProductVariant" <;> simp [hpv]
    match merch.bundleRefs with
    | none => rfl
    | some mf =>
      by_cases hty : mf.type = "list.variant_reference" <;> simp [hty]
      rw [normalizeVariantIdsE_eq]
      by_cases hlen : (normalizeVariantIds (some mf)).length = 0 <;> simp [hlen]

/-- The exception-aware loop agrees with the pure fold. -/
theorem runLoopE_ok (l : List CartLine) (init : List Operation) :
    runLoopE l init =
      Except.ok (l.foldl (fun ops line => ops ++ lineOperations line) init) := by
  induction l generalizing init with
  | nil => rfl
  | cons a as ih =>
    unfold runLoopE
    rw [lineOperationsE_eq]
    simp only [List.foldl_cons]
    exact ih (init ++ lineOperations a)

/-- The exception-aware transform agrees with the pure model on every input:
no exception ever escapes. -/
theorem cartTransformRunE_eq (input : RunInput) :
    cartTransformRunE input = Except.ok (cartTransformRun input) := by
  unfold cartTransformRunE cartTransformRun
  rw [runLoopE_ok]

/-- A truthy optional value is `some` of its default-extracted value, and that
value is truthy. -/
theorem truthyOpt_eq_true (a : Option JSValue) (h : truthyOpt a = true) :
    a = some (a.getD JSValue.null) ∧ truthy (a.getD JSValue.null) = true := by
  cases a with
  | none => simp [truthyOpt] at h
  | some v => exact ⟨rfl, h⟩

/-- For an element whose mapping and amended mapping have the id/gid fallback
shape, the amended mapping is keep-if-truthy of the source mapping. -/
theorem amendedElem_fallback (x : JSValue)
    (hm : mapElem x = (if truthyOpt (getField x ("id")) then (getField x ("id")).getD .null
      else if truthyOpt (getField x ("gid")) then (getField x ("gid")).getD .null
      else .null))
    (hae : amendedElem x = (if truthyOpt (getField x ("id")) then getField x ("id")
      else if truthyOpt (getField x ("gid")) then getField x ("gid")
      else none)) :
    amendedElem x = if truthy (mapElem x) = true then some (mapElem x) else none := by
  rw [hm, hae]
  by_cases ha : truthyOpt (getField x ("id")) = true
  · obtain ⟨hsome, htr⟩ := truthyOpt_eq_true _ ha
    simp only [ha, if_true]
    rw [if_pos htr]
    exact hsome
  · by_cases hb : truthyOpt (getField x ("gid")) = true
    · obtain ⟨hsome, htr⟩ := truthyOpt_eq_true _ hb
      simp only [ha, hb, Bool.false_eq_true, if_false, if_true]
      rw [if_pos htr]
      exact hsome
    · simp only [ha, hb, Bool.false_eq_true, if_false]
      rw [if_neg (by simp [truthy])]

/-- The amended elementwise resolution is exactly keep-if-truthy of the source
element mapping. -/
theorem amendedElem_eq (x : JSValue) :
    amendedElem x = if truthy (mapElem x) = true then some (mapElem x) else none := by
  cases x with
  | str s =>
    by_cases hs : s = ""
    · subst hs; simp [mapElem, amendedElem, truthy]
    · simp [mapElem, amendedElem, truthy, hs]
  | null => exact amendedElem_fallback _ rfl rfl
  | bool b => exact amendedElem_fallback _ rfl rfl
  | num q => exact amendedElem_fallback _ rfl rfl
  | arr elems => exact amendedElem_fallback _ rfl rfl
  | obj fields => exact amendedElem_fallback _ rfl rfl

/-- The source's map-then-filter array branch equals the amended elementwise
filterMap. -/
theorem filter_map_eq_filterMap_amended (xs : List JSValue) :
    (xs.map mapElem).filter truthy = xs.filterMap amendedElem := by
  induction xs with
  | nil => rfl
  | cons x rest ih =>
    rw [List.map_cons, List.filter_cons, List.filterMap_cons, amendedElem_eq, ih]
    by_cases h : truthy (mapElem x) = true <;> simp [h]

/-- A line whose merchandise is absent or not a product variant contributes no
operation. -/
theorem lineOperations_eq_nil_of_not_pv (line : CartLine)
    (h : ∀ merch, line.merchandise = some merch → merch.typename ≠ "ProductVariant") :
    lineOperations line = [] := by
  obtain ⟨lid, lq, lm⟩ := line
  cases lm with
  | none => rfl
  | some merch =>
    have hpv := h merch rfl
    simp [lineOperations, hpv]

/-- Concrete evaluation: the sample cart yields exactly the sample operation. -/
theorem sampleRun_eq : (cartTransformRun sampleInput).operations = [sampleOp] := rfl

/-- Concrete evaluation: the sample line contributes exactly the sample
operation. -/
theorem sampleLineOps_eq : lineOperations sampleLine = [sampleOp] := rfl

/-! ### Claims -/

/-- C1: the claim asserts that when the parsed JSON value is absent and the raw
string value fails to parse as JSON, the string is treated directly as a single
identifier or comma list, so that raw value "gid://shopify/ProductVariant/9"
resolves to the one-element list.  This is false on the source: the reading of
the raw string fails, the catch clause leaves raw unchanged (absent), and
resolution returns the empty list; the raw string is never handed to the
single-identifier / comma-list handling. -/
theorem claim_C1_counterexample :
    normalizeVariantIds (some c1Metafield) = [] ∧
    normalizeVariantIds (some c1Metafield) ≠
      [JSValue.str ("gid://shopify/ProductVariant/9")] := by
  refine ⟨rfl, ?_⟩
  intro h
  have h2 : ([] : List JSValue) = [JSValue.str ("gid://shopify/ProductVariant/9")] :=
    (show ([] : List JSValue) = normalizeVariantIds (some c1Metafield) from rfl).trans h
  exact List.cons_ne_nil _ _ h2.symm

/-- C1 amended: with no parsed JSON value, the raw string value is used only as
a JSON-encoded payload: when the JSON reader rejects it the metafield resolves
to the empty list (the line is skipped), and the direct single-identifier
handling applies only when the resolved value is itself a string — e.g. a raw
value that is a JSON-encoded string resolves to that one identifier when it
carries the gid:// scheme. -/
theorem claim_C1_amended (t s : String) (hs : jsonParse s = none) :
    normalizeVariantIds (some { type := t, jsonValue := none, value := some s }) = [] ∧
    normalizeVariantIds
        (some { type := t, jsonValue := none, value := some ("\"gid://shopify/ProductVariant/9\"") }) =
      [JSValue.str ("gid://shopify/ProductVariant/9")] := by
  constructor
  · simp only [normalizeVariantIds]
    simp [truthyOpt, hs, resolveRaw]
  · rfl

/-- Witness for C1's amended statement at its own example input. -/
theorem claim_C1_witness :
    normalizeVariantIds (some c1Metafield) = [] ∧
    normalizeVariantIds
        (some { type := "list.variant_reference", jsonValue := none, value := some ("\"gid://shopify/ProductVariant/9\"") }) =
      [JSValue.str ("gid://shopify/ProductVariant/9")] :=
  claim_C1_amended ("list.variant_reference") ("gid://shopify/ProductVariant/9") rfl

/-- C2: for every cart snapshot the transform returns a well-formed result and
never throws: the exception-aware model returns exactly the pure result (the
only throwing site is caught), and every emitted operation is complete — a
nonempty expanded-item list whose merchandise ids are all truthy. -/
theorem claim_C2_never_throws (input : RunInput) :
    cartTransformRunE input = Except.ok (cartTransformRun input) ∧
    ∀ op ∈ (cartTransformRun input).operations,
      op.lineExpand.expandedCartItems ≠ [] ∧
      ∀ item ∈ op.lineExpand.expandedCartItems, truthy item.merchandiseId = true := by
  refine ⟨cartTransformRunE_eq input, ?_⟩
  intro op hop
  rw [cartTransformRun_operations] at hop
  obtain ⟨line, hline, hop2⟩ := List.mem_flatMap.mp hop
  obtain ⟨_, hne, hitems⟩ := mem_lineOperations line op hop2
  exact ⟨hne, fun item hi => (hitems item hi).1⟩

/-- Witness for C2 at the concrete one-line bundle cart. -/
theorem claim_C2_witness :
    cartTransformRunE sampleInput = Except.ok (cartTransformRun sampleInput) ∧
    sampleOp.lineExpand.expandedCartItems ≠ [] ∧
    truthy sampleItem1.merchandiseId = true := by
  have h := claim_C2_never_throws sampleInput
  have hop : sampleOp ∈ (cartTransformRun sampleInput).operations := by
    rw [sampleRun_eq]
    exact List.mem_singleton.mpr rfl
  have h2 := h.2 sampleOp hop
  exact ⟨h.1, h2.1, h2.2 sampleItem1 (List.Mem.head _)⟩

/-- C3: a product-variant line with a list.variant_reference metafield whose
parsed value is the two-identifier array and whose quantity is 3 contributes
exactly one lineExpand operation carrying the line's id and two expanded items
of quantity 3, at the line's position in the cart. -/
theorem claim_C3_one_operation (lineId : String) (v : Option String)
    (pre post : List CartLine) :
    (cartTransformRun { cart := { lines := some (pre ++
      { id := lineId
        quantity := some 3
        merchandise := some
          { typename := "ProductVariant"
            bundleRefs := some
              { type := "list.variant_reference"
                jsonValue := some (JSValue.arr
                  [JSValue.str ("gid://shopify/ProductVariant/1"),
                   JSValue.str ("gid://shopify/ProductVariant/2")])
                value := v } } } :: post) } }).operations =
      pre.flatMap lineOperations ++
        { lineExpand :=
            { cartLineId := lineId
              expandedCartItems :=
                [{ merchandiseId := JSValue.str ("gid://shopify/ProductVariant/1"), quantity := 3 },
                 { merchandiseId := JSValue.str ("gid://shopify/ProductVariant/2"), quantity := 3 }] } }
          :: post.flatMap lineOperations := by
  rw [cartTransformRun_operations]
  simp only [Option.getD_some]
  rw [List.flatMap_append, List.flatMap_cons]
  rfl

/-- C4: expanded items carry the line's quantity when it is present (a positive
integer under the input schema, hypothesis `hq`) and 1 when it is absent. -/
theorem claim_C4_quantity (line : CartLine)
    (hq : ∀ q, line.quantity = some q → 0 < q)
    (op : Operation) (hop : op ∈ lineOperations line)
    (item : ExpandedItem) (hitem : item ∈ op.lineExpand.expandedCartItems) :
    item.quantity = line.quantity.getD 1 ∧
    (∀ q, line.quantity = some q → 0 < q ∧ item.quantity = q) ∧
    (line.quantity = none → item.quantity = 1) := by
  have h := (mem_lineOperations line op hop).2.2 item hitem
  refine ⟨h.2, ?_, ?_⟩
  · intro q hqq
    refine ⟨hq q hqq, ?_⟩
    rw [h.2, hqq]
    rfl
  · intro hnone
    rw [h.2, hnone]
    rfl

/-- Witness for C4 at the sample line (quantity 3). -/
theorem claim_C4_witness :
    sampleItem1.quantity = sampleLine.quantity.getD 1 ∧
    (∀ q, sampleLine.quantity = some q → 0 < q ∧ sampleItem1.quantity = q) ∧
    (sampleLine.quantity = none → sampleItem1.quantity = 1) :=
  claim_C4_quantity sampleLine
    (by intro q hq; simp [sampleLine] at hq; omega)
    sampleOp (by rw [sampleLineOps_eq]; exact List.mem_singleton.mpr rfl)
    sampleItem1 (List.Mem.head _)

/-- C5: a metafield whose declared type tag differs from the exact string
list.variant_reference produces no operation for its line, whatever the shape
of the metafield's value, and the line contributes nothing to any cart. -/
theorem claim_C5_exact_type (line : CartLine) (merch : Merchandise) (mf : Metafield)
    (hm : line.merchandise = some merch) (hb : merch.bundleRefs = some mf)
    (hty : mf.type ≠ "list.variant_reference") :
    lineOperations line = [] ∧
    ∀ pre post : List CartLine,
      (cartTransformRun { cart := { lines := some (pre ++ line :: post) } }).operations =
        (cartTransformRun { cart := { lines := some (pre ++ post) } }).operations := by
  obtain ⟨lid, lq, lm⟩ := line
  simp only at hm
  subst hm
  obtain ⟨mtn, mrefs⟩ := merch
  simp only at hb
  subst hb
  have h0 : lineOperations ⟨lid, lq, some ⟨mtn, some mf⟩⟩ = [] := by
    by_cases hpv : mtn = "ProductVariant"
    · simp [lineOperations, hpv, hty]
    · simp [lineOperations, hpv]
  refine ⟨h0, ?_⟩
  intro pre post
  rw [cartTransformRun_operations, cartTransformRun_operations]
  simp only [Option.getD_some]
  rw [List.flatMap_append, List.flatMap_cons, h0, List.flatMap_append]
  simp

/-- Witness for C5 at a near-miss type tag with a well-shaped value. -/
theorem claim_C5_witness :
    lineOperations c5Line = [] ∧
    ∀ pre post : List CartLine,
      (cartTransformRun { cart := { lines := some (pre ++ c5Line :: post) } }).operations =
        (cartTransformRun { cart := { lines := some (pre ++ post) } }).operations :=
  claim_C5_exact_type c5Line
    { typename := "ProductVariant", bundleRefs := some c5Metafield }
    c5Metafield rfl rfl (by decide)

/-- C6: the claim resolves a non-string element through its id field whenever
that field is present, falling to gid only when id is absent.  This is false on
the source: for an element with an empty id and a real gid the claim predicts
the element is dropped (its id contribution is falsy), but the source's
truthiness fallback takes the gid and keeps the element. -/
theorem claim_C6_counterexample :
    specArrayResolution [c6Element] = [] ∧
    normalizeVariantIds (some c6Metafield) = [JSValue.str ("gid://shopify/ProductVariant/7")] ∧
    normalizeVariantIds (some c6Metafield) ≠ specArrayResolution [c6Element] := by
  refine ⟨rfl, rfl, ?_⟩
  intro h
  have h2 : [JSValue.str ("gid://shopify/ProductVariant/7")] = ([] : List JSValue) :=
    (show [JSValue.str ("gid://shopify/ProductVariant/7")] =
      normalizeVariantIds (some c6Metafield) from rfl).trans
      (h.trans (show specArrayResolution [c6Element] = [] from rfl))
  exact List.cons_ne_nil _ _ h2

/-- C6 amended: for a metafield whose resolved raw value is a JSON array, each
element resolves, in order, to: the element itself when it is a nonempty
string; otherwise its id field when truthy, otherwise its gid field when
truthy, otherwise it is dropped (so presence of a falsy id no longer shadows a
usable gid). -/
theorem claim_C6_amended (t : String) (v : Option String) (xs : List JSValue) :
    normalizeVariantIds (some { type := t, jsonValue := some (JSValue.arr xs), value := v }) =
      xs.filterMap amendedElem := by
  have h0 : normalizeVariantIds
      (some { type := t, jsonValue := some (JSValue.arr xs), value := v }) =
      (xs.map mapElem).filter truthy := rfl
  rw [h0, filter_map_eq_filterMap_amended]

/-- C7: a cart with no lines, and a cart none of whose lines is a
product-variant merchandise, both give the shared empty result. -/
theorem claim_C7_no_qualifying_lines (input : RunInput)
    (h : ∀ line ∈ input.cart.lines.getD [], ∀ merch,
      line.merchandise = some merch → merch.typename ≠ "ProductVariant") :
    cartTransformRun input = NO_CHANGES := by
  have hops : (cartTransformRun input).operations = [] := by
    rw [cartTransformRun_operations]
    rw [List.flatMap_eq_nil_iff]
    intro line hline
    exact lineOperations_eq_nil_of_not_pv line (h line hline)
  calc cartTransformRun input = { operations := (cartTransformRun input).operations } := rfl
    _ = NO_CHANGES := by rw [hops]; rfl

/-- Witness for C7 at a one-line cart whose line is a custom product. -/
theorem claim_C7_witness :
    cartTransformRun { cart := { lines := some [c7Line] } } = NO_CHANGES :=
  claim_C7_no_qualifying_lines _ (by
    intro line hl merch hm
    have hline : line = c7Line := List.mem_singleton.mp hl
    subst hline
    have hmm : ({ typename := "CustomProduct", bundleRefs := none } : Merchandise) = merch :=
      Option.some.inj hm
    rw [← hmm]
    decide)

/-- C8: output preserves input line order: the operations are exactly the
in-order concatenation of the per-line contributions, and the transform maps
concatenation of line sequences to concatenation of outputs. -/
theorem claim_C8_line_order (input : RunInput) (pre post : List CartLine) :
    (cartTransformRun input).operations =
      (input.cart.lines.getD []).flatMap lineOperations ∧
    (cartTransformRun { cart := { lines := some (pre ++ post) } }).operations =
      (cartTransformRun { cart := { lines := some pre } }).operations ++
        (cartTransformRun { cart := { lines := some post } }).operations := by
  refine ⟨cartTransformRun_operations input, ?_⟩
  rw [cartTransformRun_operations, cartTransformRun_operations, cartTransformRun_operations]
  simp [List.flatMap_append]

/-- C9: every merchandiseId in any expanded item of the output is truthy, hence
neither null nor the empty string: malformed entries are filtered during
resolution and never propagate. -/
theorem claim_C9_ids_never_empty (input : RunInput) (op : Operation)
    (hop : op ∈ (cartTransformRun input).operations)
    (item : ExpandedItem) (hitem : item ∈ op.lineExpand.expandedCartItems) :
    truthy item.merchandiseId = true ∧
    item.merchandiseId ≠ JSValue.null ∧ item.merchandiseId ≠ JSValue.str ("") := by
  rw [cartTransformRun_operations] at hop
  obtain ⟨line, hline, hop2⟩ := List.mem_flatMap.mp hop
  have h := ((mem_lineOperations line op hop2).2.2 item hitem).1
  refine ⟨h, ?_, ?_⟩
  · intro hn
    rw [hn] at h
    exact absurd h (by decide)
  · intro hn
    rw [hn] at h
    exact absurd h (by decide)

/-- Witness for C9 at the sample cart's first expanded item. -/
theorem claim_C9_witness :
    truthy sampleItem1.merchandiseId = true ∧
    sampleItem1.merchandiseId ≠ JSValue.null ∧
    sampleItem1.merchandiseId ≠ JSValue.str ("") :=
  claim_C9_ids_never_empty sampleInput sampleOp
    (by rw [sampleRun_eq]; exact List.mem_singleton.mpr rfl)
    sampleItem1 (List.Mem.head _)

/-- C10: the array branch applies no gid:// validation: any truthy element
survives verbatim — a non-gid string element, and a numeric id field value, are
propagated unchanged into the operation's merchandise ids — while a plain
string raw value that is not gid-schemed yields nothing, since the gid://
filter applies only in the string branch. -/
theorem claim_C10_array_unvalidated :
    (∀ s : String, s ≠ "" → ¬ startsWithGid s = true →
      normalizeVariantIds
          (some { type := "list.variant_reference", jsonValue := some (JSValue.arr [JSValue.str s]), value := none }) =
        [JSValue.str s]) ∧
    normalizeVariantIds (some c10Metafield) = [JSValue.str ("not-a-gid"), JSValue.num 42] ∧
    (cartTransformRun { cart := { lines := some [c10Line] } }).operations =
      [{ lineExpand :=
          { cartLineId := "gid://shopify/CartLine/10"
            expandedCartItems :=
              [{ merchandiseId := JSValue.str ("not-a-gid"), quantity := 1 },
               { merchandiseId := JSValue.num 42, quantity := 1 }] } }] ∧
    normalizeVariantIds
        (some { type := "list.variant_reference", jsonValue := some (JSValue.str ("not-a-gid")), value := none }) =
      [] := by
  refine ⟨?_, rfl, rfl, rfl⟩
  intro s hs hgid
  have h0 : normalizeVariantIds
      (some { type := "list.variant_reference", jsonValue := some (JSValue.arr [JSValue.str s]), value := none }) =
      ([JSValue.str s].map mapElem).filter truthy := rfl
  rw [h0]
  simp [mapElem, truthy, hs]

/-- Witness for C10 at the non-gid string element. -/
theorem claim_C10_witness :
    normalizeVariantIds
        (some { type := "list.variant_reference", jsonValue := some (JSValue.arr [JSValue.str ("not-a-gid")]), value := none }) =
      [JSValue.str ("not-a-gid")] :=
  claim_C10_array_unvalidated.1 ("not-a-gid") (by decide) (by decide)

end BundleCartTransform
